import Mathlib

/-
Shallow embedding of the skeema applier and workspace packages
(applier/applier.go, workspace/workspace.go), with theorems checking the
specification's claims about them.

External collaborators (tengo, fs, linter, database driver) are modelled as
opaque data supplied through environment records: each database call's outcome
is a field or function of the environment, and the embedded control flow
follows the Go source line by line.
-/

namespace Applier

/-- Result stores the overall result of all operations the worker has
completed (applier.go). Go declares the counters as int; they are embedded
as Int. -/
structure Result where
  Differences : Bool := false
  SkipCount : Int := 0
  UnsupportedCount : Int := 0
deriving DecidableEq

/-- One step of the loop body of SumResults (applier.go lines 161-165):
OR the Differences flags, add the counters. -/
def addResult (total r : Result) : Result :=
  { Differences := total.Differences || r.Differences
    SkipCount := total.SkipCount + r.SkipCount
    UnsupportedCount := total.UnsupportedCount + r.UnsupportedCount }

/-- SumResults adds up the supplied results to return a single combined
result (applier.go). The Go loop starting from the zero Result is a left
fold of addResult. -/
def SumResults (results : List Result) : Result :=
  results.foldl addResult {}

/-- Outcome of NewDDLStatement(objDiff, mods, t) for one object diff, as
the Worker loop distinguishes them (applier.go lines 76-98): nil ddl and
nil error (no-op), a produced DDL statement (whose later Execute() outcome
is carried alongside), an UnsupportedDiffError, or any other error. -/
inductive RenderOutcome where
  | noop
  | produced (execOk : Bool)
  | unsupported
  | renderErr
deriving DecidableEq

/-- One object-level diff as seen by the Worker loop: only its
NewDDLStatement outcome matters to the embedded control flow. -/
structure ObjDiff where
  render : RenderOutcome
deriving DecidableEq

/-- A deployment target together with the outcomes of the external calls
the Worker makes for it (config lookups, SchemaFromInstance, VerifyDiff,
StatementModifiersForDir, linter.OptionsForDir, linter.CheckSchema), and
whether ctx.Done() is observed at the post-target select. -/
structure Target where
  dryRun : Bool := false
  brief : Bool := false
  fetchOk : Bool := true
  verifyEnabled : Bool := false
  hasTableDiffs : Bool := false
  verifyOk : Bool := true
  modsOk : Bool := true
  lintOptsOk : Bool := true
  objDiffs : List ObjDiff := []
  lintEnabled : Bool := false
  lintErrorCount : Nat := 0
  cancelAfter : Bool := false
deriving DecidableEq

/-- Observable events of one target's processing, used to track which
stages ran: the SchemaFromInstance failure log, the NewSchemaDiff call,
printer.printDDL, ddl.Execute, and the two continue-to-next-target exits. -/
inductive Ev where
  | fetchFailed
  | computedDiff
  | printedDDL
  | executedDDL
  | skippedRenderErr
  | skippedLint
deriving DecidableEq

/-- Fatal errors the Worker returns immediately (applier.go lines 53-54,
62, 67): a VerifyDiff failure or a ConfigError. -/
inductive WErr where
  | verifyFailed
  | configErr
deriving DecidableEq

/-- The loop over objDiffs (applier.go lines 76-98). Arguments after the
list: the running Result, targetStmtCount, and the accumulated ddls (each
produced DDL represented by its Execute() outcome). Returns those three
plus whether the loop exited via continue TargetsInGroup (the
SkipCount += len(objDiffs) branch). nObjDiffs is len(objDiffs). -/
def renderLoop (nObjDiffs : Nat) : List ObjDiff → Result → Nat → List Bool → Result × Nat × List Bool × Bool
  | [], r, cnt, ddls => (r, cnt, ddls, false)
  | d :: rest, r, cnt, ddls =>
    match d.render with
    | RenderOutcome.noop => renderLoop nObjDiffs rest r cnt ddls
    | RenderOutcome.produced ok =>
        renderLoop nObjDiffs rest { r with Differences := true } (cnt + 1) (ddls ++ [ok])
    | RenderOutcome.unsupported =>
        renderLoop nObjDiffs rest
          { r with Differences := true, UnsupportedCount := r.UnsupportedCount + 1 } (cnt + 1) ddls
    | RenderOutcome.renderErr =>
        ({ r with Differences := true, SkipCount := r.SkipCount + (nObjDiffs : Int) }, cnt + 1, ddls, true)

/-- The print/execute loop over ddls (applier.go lines 121-134): print
each DDL, and when not dry-run execute it; on an execution failure count
the remaining statements (current one included) as skipped and break. -/
def execLoop (dryRun : Bool) : List Bool → Result → Result × List Ev
  | [], r => (r, [])
  | ok :: rest, r =>
    if dryRun then
      let p := execLoop dryRun rest r
      (p.1, Ev.printedDDL :: p.2)
    else if ok then
      let p := execLoop dryRun rest r
      (p.1, Ev.printedDDL :: Ev.executedDDL :: p.2)
    else
      ({ r with SkipCount := r.SkipCount + ((rest.length : Int) + 1) }, [Ev.printedDDL])

/-- Outcome of processing one Target inside the Worker loop: the updated
Result accumulator, the events that occurred, and a fatal error if the
Worker returned early. -/
structure TOut where
  result : Result
  evs : List Ev
  fatal : Option WErr
deriving DecidableEq

/-- The body of the per-target loop of Worker (applier.go lines 31-144),
transcribed in order: SchemaFromInstance fetch (on failure SkipCount is
incremented and the failure logged, and the code then falls through to
NewSchemaDiff: there is no continue), the NewSchemaDiff call, the
VerifyDiff gate, StatementModifiersForDir and linter.OptionsForDir config
errors, the objDiffs render loop, the lint gate, and the print/execute
loop. -/
def processTarget (r0 : Result) (t : Target) : TOut :=
  let brief := t.dryRun && t.brief
  let r1 := if t.fetchOk then r0 else { r0 with SkipCount := r0.SkipCount + 1 }
  let evs0 := if t.fetchOk then ([] : List Ev) else [Ev.fetchFailed]
  let evs1 := evs0 ++ [Ev.computedDiff]
  if t.verifyEnabled && t.hasTableDiffs && !brief && !t.verifyOk then
    { result := r1, evs := evs1, fatal := some WErr.verifyFailed }
  else if !t.modsOk then
    { result := r1, evs := evs1, fatal := some WErr.configErr }
  else if !t.lintOptsOk then
    { result := r1, evs := evs1, fatal := some WErr.configErr }
  else
    let n := t.objDiffs.length
    let rl := renderLoop n t.objDiffs r1 0 []
    if rl.2.2.2 then
      { result := rl.1, evs := evs1 ++ [Ev.skippedRenderErr], fatal := none }
    else if t.lintEnabled && decide (0 < t.lintErrorCount) then
      { result := { rl.1 with SkipCount := rl.1.SkipCount + (n : Int) }
        evs := evs1 ++ [Ev.skippedLint], fatal := none }
    else
      let ex := execLoop t.dryRun rl.2.2.1 rl.1
      { result := ex.1, evs := evs1 ++ ex.2, fatal := none }

/-- Outcome of a run of the Worker loop over the remaining targets of a
group (or over the remaining groups): Result accumulator, early-return
error, whether ctx cancellation was observed at a post-target select, and
the concatenated event trace. -/
structure GOut where
  result : Result
  err : Option WErr
  cancelled : Bool
  trace : List Ev
deriving DecidableEq

/-- The inner loop of Worker over the Targets of one TargetGroup
(applier.go lines 31-152), including the post-target ctx.Done() select:
when cancellation is observed the Worker returns nil immediately. -/
def runTargets (r : Result) : List Target → GOut
  | [] => { result := r, err := none, cancelled := false, trace := [] }
  | t :: rest =>
    let o := processTarget r t
    match o.fatal with
    | some e => { result := o.result, err := some e, cancelled := false, trace := o.evs }
    | none =>
      if t.cancelAfter then
        { result := o.result, err := none, cancelled := true, trace := o.evs }
      else
        let g := runTargets o.result rest
        { result := g.result, err := g.err, cancelled := g.cancelled, trace := o.evs ++ g.trace }

/-- The outer loop of Worker over the TargetGroups read from the input
channel (applier.go line 29), modelled over the list of groups the channel
yields before being closed. -/
def runGroups (r : Result) : List (List Target) → GOut
  | [] => { result := r, err := none, cancelled := false, trace := [] }
  | g :: rest =>
    let o := runTargets r g
    if o.err.isSome || o.cancelled then o
    else
      let o2 := runGroups o.result rest
      { result := o2.result, err := o2.err, cancelled := o2.cancelled, trace := o.trace ++ o2.trace }

/-- What a Worker run makes externally visible: the Results sent on the
results channel, the returned error, whether it exited via the
cancellation select, and the event trace. -/
structure WorkerOut where
  sends : List Result
  err : Option WErr
  cancelled : Bool
  trace : List Ev
deriving DecidableEq

/-- Worker (applier.go lines 27-156): process every Target of every
TargetGroup, then send the accumulated Result on the results channel and
return nil; a fatal error or an observed cancellation returns immediately
without sending. -/
def Worker (groups : List (List Target)) : WorkerOut :=
  let o := runGroups {} groups
  match o.err with
  | some e => { sends := [], err := some e, cancelled := o.cancelled, trace := o.trace }
  | none =>
    if o.cancelled then
      { sends := [], err := none, cancelled := true, trace := o.trace }
    else
      { sends := [o.result], err := none, cancelled := false, trace := o.trace }

end Applier

namespace Workspace

/-- Object types, as far as ExecLogicalSchema distinguishes them: the
rememberSQLMode map (workspace.go lines 278-283) keys on
tengo.ObjectTypeFunc and tengo.ObjectTypeProc. -/
inductive ObjectType where
  | table
  | func
  | proc
  | other
deriving DecidableEq

/-- An fs.Statement as ExecLogicalSchema consumes it: its object type,
its SQL body, and its source location. -/
structure Statement where
  objectType : ObjectType := ObjectType.table
  body : String := ""
  location : String := ""
deriving DecidableEq

/-- An fs.LogicalSchema as ExecLogicalSchema consumes it: default charset
and collation, the CREATE statements, and the ordered ALTER statements. -/
structure LogicalSchema where
  charSet : String := ""
  collation : String := ""
  creates : List Statement := []
  alters : List Statement := []
deriving DecidableEq

/-- The Options fields that ExecLogicalSchema reads or writes
(workspace.go lines 248-253); the remaining variant-specific fields are
passed through untouched and are omitted. -/
structure Options where
  SchemaName : String := ""
  DefaultCharacterSet : String := ""
  DefaultCollation : String := ""
deriving DecidableEq

/-- StatementError wraps a single statement plus the error encountered
executing it (workspace.go lines 186-191); the error is embedded as its
rendered message string. -/
structure StatementError where
  statement : Statement
  err : String
deriving DecidableEq

/-- An error returned by db.Exec, as execStatement inspects it: its
message and whether tengo.IsSyntaxError reports it as a SQL syntax
error. -/
structure DbErr where
  msg : String := ""
  malformed : Bool := false
deriving DecidableEq

/-- The two connection pools ExecLogicalSchema opens (workspace.go lines
268-277): ConnectionPool with empty params, and ConnectionPool with the
sql_mode override removed. -/
inductive Pool where
  | normal
  | remember
deriving DecidableEq

/-- Environment of outcomes for the external calls ExecLogicalSchema
makes: New, the two ConnectionPool acquisitions, db.Exec per pool and
statement, IntrospectSchema, and Cleanup. A none error field means the
call succeeds; introspected is the opaque schema payload IntrospectSchema
returns on success. -/
structure WsEnv where
  newErr : Option String := none
  connErrNormal : Option String := none
  connErrRemember : Option String := none
  dbExec : Pool → Statement → Option DbErr := fun _ _ => none
  introspectErr : Option String := none
  introspected : String := ""
  cleanupErr : Option String := none

/-- execStatement (workspace.go lines 324-337): run the statement body on
the given pool; a nil db error yields nil, otherwise a StatementError
wrapping the statement, with the syntax-error message variant when
tengo.IsSyntaxError holds. -/
def execStatement (env : WsEnv) (pool : Pool) (statement : Statement) : Option StatementError :=
  match env.dbExec pool statement with
  | none => none
  | some e =>
    if e.malformed then
      some { statement := statement, err := "SQL syntax error: " ++ e.msg }
    else
      some { statement := statement, err := "Error executing DDL in workspace: " ++ e.msg }

/-- The rememberSQLMode map (workspace.go lines 278-283): true exactly for
stored functions and procedures. -/
def rememberSQLMode (ot : ObjectType) : Bool :=
  match ot with
  | ObjectType.func => true
  | ObjectType.proc => true
  | _ => false

/-- The pool a CREATE statement's goroutine routes it to (workspace.go
lines 293-299): the preserve-session-mode pool when rememberSQLMode holds
for its object type, else the normal pool. -/
def routePool (s : Statement) : Pool :=
  if rememberSQLMode s.objectType then Pool.remember else Pool.normal

/-- The charset/collation merge at the top of ExecLogicalSchema
(workspace.go lines 248-253): each logical-schema field overwrites the
corresponding option whenever the logical-schema field is non-empty. -/
def mergeSchemaDefaults (ls : LogicalSchema) (opts : Options) : Options :=
  let o1 := if ls.charSet ≠ "" then { opts with DefaultCharacterSet := ls.charSet } else opts
  if ls.collation ≠ "" then { o1 with DefaultCollation := ls.collation } else o1

/-- The workspace.Schema result type (workspace.go lines 210-214): the
introspected tengo.Schema (opaque payload, none while not yet
introspected), the originating logical schema, and the Failures list. -/
structure WSchema where
  schema : Option String := none
  logicalSchema : LogicalSchema
  failures : List StatementError := []
deriving DecidableEq

/-- The deferred cleanup logic of ExecLogicalSchema (workspace.go lines
259-263): run Cleanup, and assign its error to fatalErr only when
fatalErr is still nil. -/
def withCleanup (env : WsEnv) (fatalErr : Option String) : Option String :=
  match fatalErr with
  | some e => some e
  | none => env.cleanupErr

/-- Everything observable about one ExecLogicalSchema run: the returned
(wsSchema, fatalErr) pair, the options after the charset/collation merge,
whether ws.Cleanup ran, the (pool, statement) execution traces of the
CREATE and ALTER phases, the SetMaxOpenConns caps in force during the
CREATE phase and after the deferred reset, and how many results the
fan-in loop collected from the results channel. -/
structure ExecResult where
  wsSchema : Option WSchema
  fatalErr : Option String
  optsUsed : Options
  cleanupRan : Bool
  createTrace : List (Pool × Statement)
  alterTrace : List (Pool × Statement)
  capDuringCreates : Nat × Nat
  capAfter : Nat × Nat
  createResultsCollected : Nat

/-- ExecLogicalSchema (workspace.go lines 247-322). The CREATE phase runs
its statements concurrently; the embedding takes the nondeterministic
completion schedule as the extra argument arrival, the order in which the
fan-in loop receives the goroutines' results (theorems quantify over all
permutations of logicalSchema.creates). Each goroutine sends exactly one
result, routed by routePool; the collection loop runs once per CREATE
statement. ALTER statements then run sequentially in list order on the
normal pool, and IntrospectSchema fills the schema (an introspection
error is fatal). Every path after New succeeds runs the deferred
Cleanup, whose error is surfaced only when no fatal error exists yet. -/
def ExecLogicalSchema (logicalSchema : LogicalSchema) (opts : Options) (env : WsEnv) (arrival : List Statement) : ExecResult :=
  let opts := mergeSchemaDefaults logicalSchema opts
  match env.newErr with
  | some e =>
    { wsSchema := none, fatalErr := some e, optsUsed := opts, cleanupRan := false,
      createTrace := [], alterTrace := [], capDuringCreates := (0, 0), capAfter := (0, 0),
      createResultsCollected := 0 }
  | none =>
    match env.connErrNormal with
    | some e =>
      { wsSchema := none, fatalErr := withCleanup env (some ("Cannot connect to workspace: " ++ e)),
        optsUsed := opts, cleanupRan := true,
        createTrace := [], alterTrace := [], capDuringCreates := (0, 0), capAfter := (0, 0),
        createResultsCollected := 0 }
    | none =>
      match env.connErrRemember with
      | some e =>
        { wsSchema := none, fatalErr := withCleanup env (some ("Cannot connect to workspace: " ++ e)),
          optsUsed := opts, cleanupRan := true,
          createTrace := [], alterTrace := [], capDuringCreates := (0, 0), capAfter := (0, 0),
          createResultsCollected := 0 }
      | none =>
        let createFailures := arrival.filterMap (fun s => execStatement env (routePool s) s)
        let alterFailures := logicalSchema.alters.filterMap (fun s => execStatement env Pool.normal s)
        let failures := createFailures ++ alterFailures
        let createTrace := arrival.map (fun s => (routePool s, s))
        let alterTrace := logicalSchema.alters.map (fun s => (Pool.normal, s))
        match env.introspectErr with
        | some e =>
          { wsSchema := some { schema := none, logicalSchema := logicalSchema, failures := failures },
            fatalErr := withCleanup env (some e),
            optsUsed := opts, cleanupRan := true,
            createTrace := createTrace, alterTrace := alterTrace,
            capDuringCreates := (10, 10), capAfter := (0, 0),
            createResultsCollected := logicalSchema.creates.length }
        | none =>
          { wsSchema := some { schema := some env.introspected, logicalSchema := logicalSchema, failures := failures },
            fatalErr := withCleanup env none,
            optsUsed := opts, cleanupRan := true,
            createTrace := createTrace, alterTrace := alterTrace,
            capDuringCreates := (10, 10), capAfter := (0, 0),
            createResultsCollected := logicalSchema.creates.length }

/-- The argument tuple Shutdown passes through to each ShutdownFunc,
modelled opaquely. -/
def ShutdownArgs := List String

/-- ShutdownFunc (workspace.go line 153): receives the pass-through
arguments and returns true when it performed cleanup (and should be
de-registered). -/
def ShutdownFunc := ShutdownArgs → Bool

/-- RegisterShutdownFunc (workspace.go lines 180-184): append the function
to the registry (the mutex-guarded critical section is embedded as its
single-threaded functional behavior on the registry list). -/
def RegisterShutdownFunc (funcs : List ShutdownFunc) (f : ShutdownFunc) : List ShutdownFunc :=
  funcs ++ [f]

/-- Shutdown (workspace.go lines 164-174), as a function of the registry
list and the call-time arguments: invoke each registered function once
with those arguments, in registration order, and retain exactly the
functions whose call returned false. Returns the invocation trace (each
function paired with the value it returned) and the new registry list. -/
def Shutdown : List ShutdownFunc → ShutdownArgs → List (ShutdownFunc × Bool) × List ShutdownFunc
  | [], _ => ([], [])
  | f :: rest, args =>
    let deregister := f args
    let p := Shutdown rest args
    ((f, deregister) :: p.1, if deregister then p.2 else f :: p.2)

end Workspace

namespace Applier

theorem addResult_assoc (a b c : Result) :
    addResult (addResult a b) c = addResult a (addResult b c) := by
  simp [addResult, Bool.or_assoc, Int.add_assoc]

theorem addResult_comm (a b : Result) : addResult a b = addResult b a := by
  simp [addResult, Bool.or_comm, Int.add_comm]

theorem addResult_zero_left (a : Result) : addResult {} a = a := by
  simp [addResult]

theorem addResult_zero_right (a : Result) : addResult a {} = a := by
  simp [addResult]

theorem foldl_addResult (l : List Result) (x : Result) :
    l.foldl addResult x = addResult x (SumResults l) := by
  induction l generalizing x with
  | nil => simp [SumResults, addResult_zero_right]
  | cons h t ih =>
    simp only [SumResults, List.foldl_cons] at *
    rw [ih (addResult x h), ih (addResult {} h), addResult_zero_left, addResult_assoc]

theorem sumResults_cons (x : Result) (l : List Result) :
    SumResults (x :: l) = addResult x (SumResults l) := by
  have h : SumResults (x :: l) = List.foldl addResult (addResult {} x) l := rfl
  rw [h, foldl_addResult, addResult_zero_left]

theorem sumResults_append (l₁ l₂ : List Result) :
    SumResults (l₁ ++ l₂) = addResult (SumResults l₁) (SumResults l₂) := by
  have h : SumResults (l₁ ++ l₂) = List.foldl addResult (SumResults l₁) l₂ := by
    simp [SumResults, List.foldl_append]
  rw [h, foldl_addResult]

theorem sumResults_perm {l₁ l₂ : List Result} (p : l₁.Perm l₂) :
    SumResults l₁ = SumResults l₂ := by
  induction p with
  | nil => rfl
  | cons x _ ih => rw [sumResults_cons, sumResults_cons, ih]
  | swap x y l =>
    rw [sumResults_cons, sumResults_cons, sumResults_cons, sumResults_cons,
      ← addResult_assoc, ← addResult_assoc, addResult_comm y x]
  | trans _ _ ih₁ ih₂ => exact ih₁.trans ih₂

/-- C8: SumResults combines Results by OR of the Differences flags and
addition of SkipCount and UnsupportedCount; the combining operation is
associative and commutative with the zero Result as identity, so
SumResults distributes over concatenation and is invariant under
permutation of its input. -/
theorem sumResults_algebra :
    (∀ a b c : Result, addResult (addResult a b) c = addResult a (addResult b c)) ∧
    (∀ a b : Result, addResult a b = addResult b a) ∧
    (∀ a : Result, addResult {} a = a ∧ addResult a {} = a) ∧
    (∀ l₁ l₂ : List Result, SumResults (l₁ ++ l₂) = addResult (SumResults l₁) (SumResults l₂)) ∧
    (∀ l₁ l₂ : List Result, l₁.Perm l₂ → SumResults l₁ = SumResults l₂) :=
  ⟨addResult_assoc, addResult_comm, fun a => ⟨addResult_zero_left a, addResult_zero_right a⟩,
    sumResults_append, fun _ _ p => sumResults_perm p⟩

/-- Concrete instance of sumResults_algebra: summing two concrete Results
in either order yields the same aggregate. -/
theorem sumResults_algebra_witness :
    SumResults [{ Differences := true, SkipCount := 2, UnsupportedCount := 0 },
                { Differences := false, SkipCount := 3, UnsupportedCount := 1 }] =
    SumResults [{ Differences := false, SkipCount := 3, UnsupportedCount := 1 },
                { Differences := true, SkipCount := 2, UnsupportedCount := 0 }] :=
  sumResults_algebra.2.2.2.2 _ _ (List.Perm.swap _ _ _)

theorem runTargets_err_of_cancelled (r : Result) (ts : List Target) :
    (runTargets r ts).cancelled = true → (runTargets r ts).err = none := by
  induction ts generalizing r with
  | nil => intro h; cases h
  | cons t rest ih =>
    intro h
    simp only [runTargets] at h ⊢
    cases hf : (processTarget r t).fatal with
    | some e => simp [hf] at h
    | none =>
      simp only [hf] at h ⊢
      by_cases hc : t.cancelAfter = true
      · simp [hc]
      · simp only [Bool.not_eq_true] at hc
        simp only [hc, Bool.false_eq_true, if_false] at h ⊢
        exact ih _ h

theorem runGroups_err_of_cancelled (r : Result) (gs : List (List Target)) :
    (runGroups r gs).cancelled = true → (runGroups r gs).err = none := by
  induction gs generalizing r with
  | nil => intro h; cases h
  | cons g rest ih =>
    intro h
    simp only [runGroups] at h ⊢
    by_cases hstop : ((runTargets r g).err.isSome || (runTargets r g).cancelled) = true
    · simp only [hstop, if_true] at h ⊢
      exact runTargets_err_of_cancelled r g h
    · simp only [hstop, if_false] at h ⊢
      exact ih _ h

/-- C10: the Worker sends at most one Result; an observed cancellation
makes it return a nil error with nothing sent; a send happens only when
the target groups were exhausted with no cancellation observed and no
fatal error; and conversely, when the run over all groups finishes with
no fatal error and no cancellation observed, the Worker does send —
exactly once — its accumulated Result, and returns a nil error. -/
theorem worker_send_discipline (groups : List (List Target)) :
    (Worker groups).sends.length ≤ 1 ∧
    ((Worker groups).cancelled = true → (Worker groups).err = none ∧ (Worker groups).sends = []) ∧
    ((Worker groups).sends ≠ [] → (Worker groups).sends.length = 1 ∧
      (Worker groups).cancelled = false ∧ (Worker groups).err = none) ∧
    ((runGroups {} groups).err = none → (runGroups {} groups).cancelled = false →
      (Worker groups).sends = [(runGroups {} groups).result] ∧
      (Worker groups).err = none) := by
  have hec := runGroups_err_of_cancelled {} groups
  simp only [Worker]
  cases he : (runGroups {} groups).err with
  | some e =>
    refine ⟨by simp, fun hcan => ?_, by simp, fun hn => ?_⟩
    · rw [hec hcan] at he
      cases he
    · cases hn
  | none =>
    cases hc : (runGroups {} groups).cancelled <;> simp [hc]

/-- Concrete instances of worker_send_discipline: a group whose only
target observes cancellation yields a nil error and no sends, while a
normally exhausted group yields a nil error and exactly one send carrying
the accumulated Result. -/
theorem worker_send_discipline_witness :
    ((Worker [[{ cancelAfter := true } ]]).err = none ∧
      (Worker [[{ cancelAfter := true } ]]).sends = []) ∧
    (Worker [[{ objDiffs := [{ render := RenderOutcome.produced true }] } ]]).sends =
      [(runGroups {} [[{ objDiffs := [{ render := RenderOutcome.produced true }] } ]]).result] ∧
    (Worker [[{ objDiffs := [{ render := RenderOutcome.produced true }] } ]]).err = none :=
  ⟨(worker_send_discipline [[{ cancelAfter := true } ]]).2.1 (by decide),
   (worker_send_discipline [[{ objDiffs := [{ render := RenderOutcome.produced true }] } ]]).2.2.2
     (by decide) (by decide)⟩

/-- The concrete target exhibiting the missing skip: fetching the live
schema fails, and its single object diff renders a DDL statement whose
execution would succeed. -/
def fetchFailTarget : Target :=
  { fetchOk := false, objDiffs := [{ render := RenderOutcome.produced true }] }

/-- C1: evaluation at a target whose live-schema fetch fails. The Worker
increments SkipCount and logs, but the code then falls through (there is
no continue after the applier.go line 46-48 error branch): the diff is
computed and the produced DDL is printed and executed, so the target is
not skipped, contrary to the Skipping log message it just emitted. -/
theorem worker_fetch_failure_still_processes :
    (Worker [[fetchFailTarget]]).trace =
      [Ev.fetchFailed, Ev.computedDiff, Ev.printedDDL, Ev.executedDDL] ∧
    (Worker [[fetchFailTarget]]).sends =
      [{ Differences := true, SkipCount := 1, UnsupportedCount := 0 }] := by
  decide

/-- The number of DDL statements the render loop actually produces for a
target (re-running renderLoop from a zero accumulator). -/
def producedDDLCount (t : Target) : Nat :=
  (renderLoop t.objDiffs.length t.objDiffs {} 0 []).2.2.1.length

/-- A target with lint enabled and one lint error whose two object diffs
render to one no-op and one produced DDL statement. -/
def lintGateTarget : Target :=
  { lintEnabled := true, lintErrorCount := 1,
    objDiffs := [{ render := RenderOutcome.noop }, { render := RenderOutcome.produced true }] }

/-- C4 counterexample: at lintGateTarget the lint gate adds
len(objDiffs) = 2 to SkipCount although only 1 DDL statement was
produced, so the SkipCount increment does not equal the number of
produced DDL statements. -/
theorem lint_gate_skip_count_cex :
    producedDDLCount lintGateTarget = 1 ∧
    (processTarget {} lintGateTarget).result.SkipCount = 2 ∧
    (processTarget {} lintGateTarget).result.SkipCount ≠ (producedDDLCount lintGateTarget : Int) := by
  decide

theorem renderLoop_no_renderErr (n : Nat) (ds : List ObjDiff) (r : Result) (cnt : Nat) (ddls : List Bool)
    (h : ∀ d ∈ ds, d.render ≠ RenderOutcome.renderErr) :
    (renderLoop n ds r cnt ddls).2.2.2 = false ∧
    (renderLoop n ds r cnt ddls).1.SkipCount = r.SkipCount := by
  induction ds generalizing r cnt ddls with
  | nil => exact ⟨rfl, rfl⟩
  | cons d rest ih =>
    have hd := h d (List.mem_cons_self _ _)
    have hrest : ∀ x ∈ rest, x.render ≠ RenderOutcome.renderErr :=
      fun x hx => h x (List.mem_cons_of_mem _ hx)
    cases hr : d.render with
    | noop => simpa [renderLoop, hr] using ih r cnt ddls hrest
    | produced ok => simpa [renderLoop, hr] using ih _ (cnt + 1) (ddls ++ [ok]) hrest
    | unsupported => simpa [renderLoop, hr] using ih _ (cnt + 1) ddls hrest
    | renderErr => exact absurd hr hd

/-- C4 amended: for a target that reaches the lint gate with a positive
lint error count (live-schema fetch succeeded, no fatal verify or config
error, and no object diff hit the render-error branch), the Worker
executes and prints none of the target's DDL, increments SkipCount by the
number of object-level diffs (len(objDiffs), which can exceed the number
of produced DDL statements), and does not return a fatal error, so the
loop continues with the next target. -/
theorem lint_gate_skips_objdiff_count (r : Result) (t : Target)
    (hFetch : t.fetchOk = true) (hVer : t.verifyOk = true)
    (hMods : t.modsOk = true) (hLintOpts : t.lintOptsOk = true)
    (hNoErr : ∀ d ∈ t.objDiffs, d.render ≠ RenderOutcome.renderErr)
    (hLint : t.lintEnabled = true) (hCnt : 0 < t.lintErrorCount) :
    (processTarget r t).fatal = none ∧
    (processTarget r t).result.SkipCount = r.SkipCount + (t.objDiffs.length : Int) ∧
    Ev.executedDDL ∉ (processTarget r t).evs ∧
    Ev.printedDDL ∉ (processTarget r t).evs := by
  have hrl := renderLoop_no_renderErr t.objDiffs.length t.objDiffs r 0 [] hNoErr
  simp only [processTarget, hFetch, hVer, hMods, hLintOpts, hLint, hCnt]
  simp [hrl.1, hrl.2]

/-- Concrete instance of lint_gate_skips_objdiff_count at
lintGateTarget. -/
theorem lint_gate_skips_objdiff_count_witness :
    (processTarget {} lintGateTarget).fatal = none ∧
    (processTarget {} lintGateTarget).result.SkipCount =
      ({} : Result).SkipCount + (lintGateTarget.objDiffs.length : Int) ∧
    Ev.executedDDL ∉ (processTarget {} lintGateTarget).evs ∧
    Ev.printedDDL ∉ (processTarget {} lintGateTarget).evs :=
  lint_gate_skips_objdiff_count {} lintGateTarget rfl rfl rfl rfl (by decide) rfl (by decide)

end Applier

namespace Workspace

theorem shutdown_invoke_retain (funcs : List ShutdownFunc) (args : ShutdownArgs) :
    (Shutdown funcs args).1 = funcs.map (fun f => (f, f args)) ∧
    (Shutdown funcs args).2 = funcs.filter (fun f => !(f args)) := by
  induction funcs with
  | nil => exact ⟨rfl, rfl⟩
  | cons f rest ih =>
    simp only [Shutdown, List.map_cons, List.filter_cons]
    cases h : f args <;> simp [h, ih.1, ih.2]

/-- C9: RegisterShutdownFunc appends to the registry; Shutdown invokes
every registered function exactly once with the call-time arguments, in
registration order, and the registry afterwards contains exactly the
functions that returned false, in their original relative order. The
mutex-guarded critical sections are embedded as their single-threaded
functional behavior on the registry list. -/
theorem shutdown_registry_spec :
    (∀ (funcs : List ShutdownFunc) (f : ShutdownFunc), RegisterShutdownFunc funcs f = funcs ++ [f]) ∧
    (∀ (funcs : List ShutdownFunc) (args : ShutdownArgs),
      (Shutdown funcs args).1 = funcs.map (fun f => (f, f args)) ∧
      (Shutdown funcs args).2 = funcs.filter (fun f => !(f args))) :=
  ⟨fun _ _ => rfl, shutdown_invoke_retain⟩

theorem execStatement_none_iff (env : WsEnv) (pool : Pool) (s : Statement) :
    execStatement env pool s = none ↔ env.dbExec pool s = none := by
  unfold execStatement
  cases hx : env.dbExec pool s with
  | none => simp
  | some e => cases he : e.malformed <;> simp [he]

theorem execStatement_isSome (env : WsEnv) (pool : Pool) (s : Statement) (f : StatementError)
    (h : execStatement env pool s = some f) : (env.dbExec pool s).isSome = true := by
  unfold execStatement at h
  cases hx : env.dbExec pool s with
  | none => rw [hx] at h; cases h
  | some e => simp [hx]

theorem execStatement_statement_eq (env : WsEnv) (pool : Pool) (s : Statement) (f : StatementError)
    (h : execStatement env pool s = some f) : f.statement = s := by
  unfold execStatement at h
  cases hx : env.dbExec pool s with
  | none => rw [hx] at h; cases h
  | some e =>
    rw [hx] at h
    by_cases he : e.malformed = true <;> simp [he] at h <;> cases h <;> rfl

theorem filterMap_exec_map (env : WsEnv) (route : Statement → Pool) (l : List Statement) :
    ((l.filterMap (fun s => execStatement env (route s) s)).map (fun f => f.statement)) =
      l.filter (fun s => (env.dbExec (route s) s).isSome) := by
  induction l with
  | nil => rfl
  | cons s rest ih =>
    cases hx : execStatement env (route s) s with
    | none =>
      have hdb : env.dbExec (route s) s = none := (execStatement_none_iff env (route s) s).mp hx
      simp [List.filterMap_cons, hx, List.filter_cons, hdb, ih]
    | some f =>
      have hdb := execStatement_isSome env (route s) s f hx
      have hst := execStatement_statement_eq env (route s) s f hx
      simp [List.filterMap_cons, hx, List.filter_cons, hdb, hst, ih]

/-- C2: when workspace construction, both pool acquisitions,
introspection and cleanup succeed, ExecLogicalSchema returns a nil fatal
error and a Schema whose Failures hold exactly one StatementError per
CREATE or ALTER statement whose execution errored (as a multiset over
the failing statements, for every completion schedule of the concurrent
CREATE phase); per-statement failures are never the fatal error. -/
theorem exec_failures_exact (logicalSchema : LogicalSchema) (opts : Options) (env : WsEnv)
    (arrival : List Statement) (hperm : arrival.Perm logicalSchema.creates)
    (hnew : env.newErr = none) (hc1 : env.connErrNormal = none) (hc2 : env.connErrRemember = none)
    (hintro : env.introspectErr = none) (hclean : env.cleanupErr = none) :
    (ExecLogicalSchema logicalSchema opts env arrival).fatalErr = none ∧
    ∃ s, (ExecLogicalSchema logicalSchema opts env arrival).wsSchema = some s ∧
      (s.failures.map (fun f => f.statement)).Perm
        (logicalSchema.creates.filter (fun st => (env.dbExec (routePool st) st).isSome) ++
         logicalSchema.alters.filter (fun st => (env.dbExec Pool.normal st).isSome)) := by
  simp only [ExecLogicalSchema, hnew, hc1, hc2, hintro, withCleanup, hclean]
  refine ⟨by trivial, _, rfl, ?_⟩
  rw [List.map_append, filterMap_exec_map env routePool,
    filterMap_exec_map env (fun _ => Pool.normal)]
  exact (hperm.filter _).append (List.Perm.refl _)

/-- A statement list exercising both pools and both outcomes: a table and
a procedure that succeed, a table and a function whose execution
errors. -/
def sampleLS : LogicalSchema :=
  { charSet := "utf8mb4", collation := "utf8mb4_general_ci",
    creates := [{ objectType := ObjectType.table, body := "CREATE TABLE a", location := "a.sql" },
                { objectType := ObjectType.func, body := "bad", location := "f.sql" },
                { objectType := ObjectType.proc, body := "CREATE PROCEDURE p", location := "p.sql" }],
    alters := [{ objectType := ObjectType.table, body := "bad", location := "x.sql" },
               { objectType := ObjectType.table, body := "ALTER TABLE a", location := "y.sql" }] }

/-- An environment where executing a statement whose body is bad errors
and everything else succeeds. -/
def sampleEnv : WsEnv :=
  { dbExec := fun _ s => if s.body = "bad" then some { msg := "boom", malformed := false } else none }

/-- Concrete instance of exec_failures_exact at sampleLS and
sampleEnv. -/
theorem exec_failures_exact_witness :
    (ExecLogicalSchema sampleLS {} sampleEnv sampleLS.creates).fatalErr = none ∧
    ∃ s, (ExecLogicalSchema sampleLS {} sampleEnv sampleLS.creates).wsSchema = some s ∧
      (s.failures.map (fun f => f.statement)).Perm
        (sampleLS.creates.filter (fun st => (sampleEnv.dbExec (routePool st) st).isSome) ++
         sampleLS.alters.filter (fun st => (sampleEnv.dbExec Pool.normal st).isSome)) :=
  exec_failures_exact sampleLS {} sampleEnv sampleLS.creates (List.Perm.refl _) rfl rfl rfl rfl rfl

/-- C3: whenever workspace construction succeeds, the deferred Cleanup
runs on every exit path of ExecLogicalSchema, and the returned fatal
error equals the pre-cleanup fatal error when one exists (a Cleanup error
never replaces it), else the Cleanup error. -/
theorem cleanup_on_every_path (logicalSchema : LogicalSchema) (opts : Options) (env : WsEnv)
    (arrival : List Statement) (hnew : env.newErr = none) :
    (ExecLogicalSchema logicalSchema opts env arrival).cleanupRan = true ∧
    (ExecLogicalSchema logicalSchema opts env arrival).fatalErr =
      withCleanup env (ExecLogicalSchema logicalSchema opts { env with cleanupErr := none } arrival).fatalErr := by
  cases hc1 : env.connErrNormal with
  | some e => simp [ExecLogicalSchema, hnew, hc1, withCleanup]
  | none =>
    cases hc2 : env.connErrRemember with
    | some e => simp [ExecLogicalSchema, hnew, hc1, hc2, withCleanup]
    | none =>
      cases hintro : env.introspectErr with
      | some e => simp [ExecLogicalSchema, hnew, hc1, hc2, hintro, withCleanup]
      | none => simp [ExecLogicalSchema, hnew, hc1, hc2, hintro, withCleanup]

/-- Preset options whose charset and collation are already set before
ExecLogicalSchema runs. -/
def presetOpts : Options :=
  { DefaultCharacterSet := "latin1", DefaultCollation := "latin1_swedish_ci" }

/-- C5 counterexample: sampleLS carries charset utf8mb4 and collation
utf8mb4_general_ci, and ExecLogicalSchema overwrites the already-set
DefaultCharacterSet and DefaultCollation of presetOpts with them: the
merge is guarded by the logical schema field being non-empty, not by the
option field being unset. -/
theorem merge_overwrites_preset_cex :
    presetOpts.DefaultCharacterSet = "latin1" ∧
    (ExecLogicalSchema sampleLS presetOpts {} []).optsUsed.DefaultCharacterSet = "utf8mb4" ∧
    (ExecLogicalSchema sampleLS presetOpts {} []).optsUsed.DefaultCharacterSet ≠
      presetOpts.DefaultCharacterSet ∧
    (ExecLogicalSchema sampleLS presetOpts {} []).optsUsed.DefaultCollation ≠
      presetOpts.DefaultCollation := by
  decide

/-- C5 amended: ExecLogicalSchema merges the logical schema's character
set and collation into the options whenever the corresponding
logical-schema field is non-empty, overwriting any already-set option
value; an option field is preserved only when the logical schema's
corresponding field is empty. Other option fields are untouched. -/
theorem merge_schema_defaults_spec (logicalSchema : LogicalSchema) (opts : Options) (env : WsEnv)
    (arrival : List Statement) :
    (ExecLogicalSchema logicalSchema opts env arrival).optsUsed = mergeSchemaDefaults logicalSchema opts ∧
    (logicalSchema.charSet = "" →
      (mergeSchemaDefaults logicalSchema opts).DefaultCharacterSet = opts.DefaultCharacterSet) ∧
    (logicalSchema.charSet ≠ "" →
      (mergeSchemaDefaults logicalSchema opts).DefaultCharacterSet = logicalSchema.charSet) ∧
    (logicalSchema.collation = "" →
      (mergeSchemaDefaults logicalSchema opts).DefaultCollation = opts.DefaultCollation) ∧
    (logicalSchema.collation ≠ "" →
      (mergeSchemaDefaults logicalSchema opts).DefaultCollation = logicalSchema.collation) ∧
    (mergeSchemaDefaults logicalSchema opts).SchemaName = opts.SchemaName := by
  refine ⟨?_, ?_, ?_, ?_, ?_, ?_⟩
  · cases hnew : env.newErr <;> cases hc1 : env.connErrNormal <;>
      cases hc2 : env.connErrRemember <;> cases hintro : env.introspectErr <;>
      simp [ExecLogicalSchema, hnew, hc1, hc2, hintro]
  · intro h
    by_cases h2 : logicalSchema.collation = "" <;> simp [mergeSchemaDefaults, h, h2]
  · intro h
    by_cases h2 : logicalSchema.collation = "" <;> simp [mergeSchemaDefaults, h, h2]
  · intro h
    by_cases h1 : logicalSchema.charSet = "" <;> simp [mergeSchemaDefaults, h, h1]
  · intro h
    by_cases h1 : logicalSchema.charSet = "" <;> simp [mergeSchemaDefaults, h, h1]
  · by_cases h1 : logicalSchema.charSet = "" <;> by_cases h2 : logicalSchema.collation = "" <;>
      simp [mergeSchemaDefaults, h1, h2]

/-- Concrete instance of merge_schema_defaults_spec: with sampleLS's
non-empty charset and collation, the merged options take the logical
schema's values. -/
theorem merge_schema_defaults_spec_witness :
    (mergeSchemaDefaults sampleLS presetOpts).DefaultCharacterSet = sampleLS.charSet ∧
    (mergeSchemaDefaults sampleLS presetOpts).DefaultCollation = sampleLS.collation :=
  ⟨(merge_schema_defaults_spec sampleLS presetOpts {} []).2.2.1 (by decide),
   (merge_schema_defaults_spec sampleLS presetOpts {} []).2.2.2.2.1 (by decide)⟩

/-- C6: on every run that reaches the execution phases, the ALTER phase
of ExecLogicalSchema is the sequential trace of exactly the logical
schema's ALTER statements, in their list order, each executed on the
normal connection pool (the embedding's alter phase is a sequential fold,
mirroring the sequential Go loop). -/
theorem alters_sequential_in_order (logicalSchema : LogicalSchema) (opts : Options) (env : WsEnv)
    (arrival : List Statement)
    (hnew : env.newErr = none) (hc1 : env.connErrNormal = none) (hc2 : env.connErrRemember = none) :
    (ExecLogicalSchema logicalSchema opts env arrival).alterTrace =
      logicalSchema.alters.map (fun s => (Pool.normal, s)) := by
  cases hintro : env.introspectErr with
  | some e => simp [ExecLogicalSchema, hnew, hc1, hc2, hintro]
  | none => simp [ExecLogicalSchema, hnew, hc1, hc2, hintro]

/-- Concrete instance of alters_sequential_in_order at sampleLS and
sampleEnv. -/
theorem alters_sequential_in_order_witness :
    (ExecLogicalSchema sampleLS {} sampleEnv sampleLS.creates).alterTrace =
      sampleLS.alters.map (fun s => (Pool.normal, s)) :=
  alters_sequential_in_order sampleLS {} sampleEnv sampleLS.creates rfl rfl rfl

theorem routePool_remember_iff (s : Statement) :
    routePool s = Pool.remember ↔
      (s.objectType = ObjectType.func ∨ s.objectType = ObjectType.proc) := by
  cases h : s.objectType <;> simp [routePool, rememberSQLMode, h]

theorem createTrace_routing (arrival : List Statement) :
    ∀ p s, (p, s) ∈ arrival.map (fun st => (routePool st, st)) →
      (p = Pool.remember ↔ (s.objectType = ObjectType.func ∨ s.objectType = ObjectType.proc)) := by
  intro p s hmem
  rcases List.mem_map.mp hmem with ⟨a, _, heq⟩
  injection heq with h1 h2
  subst h1
  subst h2
  exact routePool_remember_iff a

/-- C7: in the CREATE phase, under any completion schedule (any
permutation of the CREATE list), both pools are capped at 10 open
connections for the duration of the phase (and reset after), the fan-in
loop collects exactly one result per submitted CREATE statement, and
every submitted statement is routed to the preserve-session-mode pool
exactly when its object type is a stored function or procedure, else to
the normal pool. -/
theorem creates_routed_and_collected (logicalSchema : LogicalSchema) (opts : Options) (env : WsEnv)
    (arrival : List Statement) (hperm : arrival.Perm logicalSchema.creates)
    (hnew : env.newErr = none) (hc1 : env.connErrNormal = none) (hc2 : env.connErrRemember = none) :
    (ExecLogicalSchema logicalSchema opts env arrival).capDuringCreates = (10, 10) ∧
    (ExecLogicalSchema logicalSchema opts env arrival).capAfter = (0, 0) ∧
    (ExecLogicalSchema logicalSchema opts env arrival).createResultsCollected =
      logicalSchema.creates.length ∧
    (ExecLogicalSchema logicalSchema opts env arrival).createTrace.length =
      logicalSchema.creates.length ∧
    ((ExecLogicalSchema logicalSchema opts env arrival).createTrace).Perm
      (logicalSchema.creates.map (fun s => (routePool s, s))) ∧
    ∀ p s, (p, s) ∈ (ExecLogicalSchema logicalSchema opts env arrival).createTrace →
      (p = Pool.remember ↔ (s.objectType = ObjectType.func ∨ s.objectType = ObjectType.proc)) := by
  cases hintro : env.introspectErr with
  | some e =>
    simp only [ExecLogicalSchema, hnew, hc1, hc2, hintro]
    exact ⟨by trivial, by trivial, by trivial, by rw [List.length_map, hperm.length_eq],
      hperm.map _, createTrace_routing arrival⟩
  | none =>
    simp only [ExecLogicalSchema, hnew, hc1, hc2, hintro]
    exact ⟨by trivial, by trivial, by trivial, by rw [List.length_map, hperm.length_eq],
      hperm.map _, createTrace_routing arrival⟩

/-- Concrete instance of creates_routed_and_collected at sampleLS and
sampleEnv, with the identity completion schedule. -/
theorem creates_routed_and_collected_witness :
    (ExecLogicalSchema sampleLS {} sampleEnv sampleLS.creates).capDuringCreates = (10, 10) ∧
    (ExecLogicalSchema sampleLS {} sampleEnv sampleLS.creates).capAfter = (0, 0) ∧
    (ExecLogicalSchema sampleLS {} sampleEnv sampleLS.creates).createResultsCollected =
      sampleLS.creates.length ∧
    (ExecLogicalSchema sampleLS {} sampleEnv sampleLS.creates).createTrace.length =
      sampleLS.creates.length ∧
    ((ExecLogicalSchema sampleLS {} sampleEnv sampleLS.creates).createTrace).Perm
      (sampleLS.creates.map (fun s => (routePool s, s))) ∧
    ∀ p s, (p, s) ∈ (ExecLogicalSchema sampleLS {} sampleEnv sampleLS.creates).createTrace →
      (p = Pool.remember ↔ (s.objectType = ObjectType.func ∨ s.objectType = ObjectType.proc)) :=
  creates_routed_and_collected sampleLS {} sampleEnv sampleLS.creates (List.Perm.refl _) rfl rfl rfl

/-- Concrete instance of cleanup_on_every_path: with a failing Cleanup
and no other failures, the Cleanup error is the fatal error. -/
theorem cleanup_on_every_path_witness :
    (ExecLogicalSchema sampleLS {} { cleanupErr := some "cleanup failed" } []).cleanupRan = true ∧
    (ExecLogicalSchema sampleLS {} { cleanupErr := some "cleanup failed" } []).fatalErr =
      withCleanup { cleanupErr := some "cleanup failed" }
        (ExecLogicalSchema sampleLS {}
          { ({ cleanupErr := some "cleanup failed" } : WsEnv) with cleanupErr := none } []).fatalErr :=
  cleanup_on_every_path sampleLS {} { cleanupErr := some "cleanup failed" } [] rfl

end Workspace
